import Mathlib

/-!
Shallow embedding of the session-security and real-time fan-out core of the
device-management backend.

Sources embedded:
- src/services/tokenService.js       (TokenService)
- src/models/tokenBlacklist.js       (TokenBlacklist model)
- src/unnamed/part_008               (User model: refresh-token records)
- src/unnamed/part_002               (SSEService)
- src/services/realtimeService.js    (RealtimeService)

Conventions: time is a natural number of milliseconds since the epoch,
except JWT `iat`/`exp` claims which are in seconds as in the JWT standard
(jsonwebtoken stores seconds; the service multiplies by 1000 when it needs
a Date).  Mongo documents are lists; a mongoose Map is an association list.
-/

/-! ## JWT model (the jsonwebtoken library as used by tokenService.js) -/

/-- Payload signed into tokens: `{ id, role, email }` as built by
`rotateTokens` / the auth controller.  `email` may be the empty string when
the caller omitted it. -/
structure Claims where
  id : String
  role : String
  email : String
deriving DecidableEq, Repr

/-- A decoded JWT: payload plus registered claims.  `secret` records which
key the token was signed with, so signature verification is equality of
secrets. -/
structure Jwt where
  payload : Claims
  iat : Nat
  exp : Nat
  iss : String
  aud : String
  secret : String
deriving DecidableEq, Repr

/-- A bearer token string: either a well-formed JWT or an arbitrary opaque
string (which jsonwebtoken fails to decode). -/
inductive Token where
  | jwt (j : Jwt)
  | raw (s : String)
deriving DecidableEq, Repr

inductive JwtError where
  | jsonWebTokenError
  | tokenExpiredError
deriving DecidableEq, Repr

def jwtSecret : String := "test-secret"
def jwtIssuer : String := "device-management-api"
def jwtAudience : String := "device-management-client"

/-- Models `jwt.verify(token, secret, { issuer, audience })`: decode,
check signature, then expiry, then audience and issuer.  A malformed string
or a signature/audience/issuer mismatch raises `JsonWebTokenError`; a
passed expiry raises `TokenExpiredError`. -/
def jwtVerify (t : Token) (secret iss aud : String) (now : Nat) :
    Except JwtError Claims :=
  match t with
  | .raw _ => .error .jsonWebTokenError
  | .jwt j =>
    if j.secret ≠ secret then .error .jsonWebTokenError
    else if j.exp * 1000 ≤ now then .error .tokenExpiredError
    else if j.aud ≠ aud then .error .jsonWebTokenError
    else if j.iss ≠ iss then .error .jsonWebTokenError
    else .ok j.payload

/-- Models `jwt.decode(token)`: no signature check, just the payload, or
`null` for a malformed string. -/
def jwtDecode (t : Token) : Option Jwt :=
  match t with
  | .jwt j => some j
  | .raw _ => none

/-! ## TokenBlacklist model (src/models/tokenBlacklist.js) -/

/-- One blacklist document, per `tokenBlacklistSchema`. -/
structure BlacklistEntry where
  token : Token
  type : String
  userId : String
  reason : String
  expiresAt : Nat
  blacklistedAt : Nat
  userAgent : Option String
  ip : Option String
deriving DecidableEq, Repr

/-- The schema enum for `reason`: `['logout', 'revoked', 'security', 'expired']`. -/
def validReason (r : String) : Bool :=
  r == "logout" || r == "revoked" || r == "security" || r == "expired"

/-- The schema enum for `type`: `['access', 'refresh']`. -/
def validType (t : String) : Bool :=
  t == "access" || t == "refresh"

inductive DbError where
  /-- Mongoose schema validation failed (enum violation etc.). -/
  | validationError
  /-- Mongo duplicate-key error, `error.code === 11000`. -/
  | duplicateKey
deriving DecidableEq, Repr

/-- Models `TokenBlacklist.isBlacklisted`: `findOne({ token })` is truthy. -/
def TokenBlacklist.isBlacklisted (bl : List BlacklistEntry) (t : Token) : Bool :=
  bl.any (fun e => e.token == t)

/-- Models `this.create({...})` inside the static `blacklistToken`:
mongoose validates the document against the schema first (enum checks),
then the insert hits the unique index on `token`. -/
def TokenBlacklist.create (bl : List BlacklistEntry) (e : BlacklistEntry) :
    Except DbError (List BlacklistEntry) :=
  if !(validType e.type && validReason e.reason) then .error .validationError
  else if bl.any (fun x => x.token == e.token) then .error .duplicateKey
  else .ok (bl ++ [e])

/-- Models the static `TokenBlacklist.blacklistToken`: create the entry;
a duplicate-key error (code 11000) means the token is already blacklisted
and is reported as success with the store unchanged; any other error is
rethrown. -/
def TokenBlacklist.blacklistToken (bl : List BlacklistEntry) (token : Token)
    (type userId : String) (expiresAt : Nat) (reason : String)
    (userAgent ip : Option String) (now : Nat) :
    Except DbError (List BlacklistEntry × Bool) :=
  match TokenBlacklist.create bl
      { token := token, type := type, userId := userId, reason := reason,
        expiresAt := expiresAt, blacklistedAt := now,
        userAgent := userAgent, ip := ip } with
  | .ok bl2 => .ok (bl2, true)
  | .error .duplicateKey => .ok (bl, true)
  | .error e => .error e

/-! ## User model (src/unnamed/part_008) -/

/-- One element of `user.refreshTokens`, per `refreshTokenSchema`. -/
structure RefreshTokenRec where
  token : Token
  expiresAt : Nat
  createdAt : Nat
  lastUsed : Nat
  userAgent : Option String
  ip : Option String
deriving DecidableEq, Repr

structure User where
  id : String
  name : String
  email : String
  role : String
  refreshTokens : List RefreshTokenRec
  lockUntil : Option Nat
deriving DecidableEq, Repr

/-- Models the `isLocked` virtual: `lockUntil && lockUntil > Date.now()`. -/
def User.isLocked (u : User) (now : Nat) : Bool :=
  match u.lockUntil with
  | some l => decide (now < l)
  | none => false

/-- Insert a record into a creation-time-sorted list, before the first
strictly later element and after earlier-inserted records of equal key —
the placement a stable sort gives the element. -/
def insertByCreatedAt (r : RefreshTokenRec) :
    List RefreshTokenRec → List RefreshTokenRec
  | [] => [r]
  | x :: xs =>
    if r.createdAt ≤ x.createdAt then r :: x :: xs
    else x :: insertByCreatedAt r xs

/-- Models `this.refreshTokens.sort((a, b) => a.createdAt - b.createdAt)`:
a stable ascending sort by creation time (JS Array.prototype.sort is
stable), realized as insertion sort. -/
def sortByCreatedAt (l : List RefreshTokenRec) : List RefreshTokenRec :=
  l.foldr insertByCreatedAt []

/-- Models `userSchema.methods.addRefreshToken`: with 5 or more records
present, sort by creation time and shift off the oldest, then push the new
record (whose `createdAt`/`lastUsed` take the schema default
`Date.now`). -/
def User.addRefreshToken (u : User) (token : Token) (expiresAt : Nat)
    (userAgent ip : Option String) (now : Nat) : User :=
  let tokens :=
    if 5 ≤ u.refreshTokens.length then (sortByCreatedAt u.refreshTokens).drop 1
    else u.refreshTokens
  { u with refreshTokens := tokens ++
      [{ token := token, expiresAt := expiresAt, createdAt := now,
         lastUsed := now, userAgent := userAgent, ip := ip }] }

/-- Models `userSchema.methods.removeRefreshToken`: filter out records
whose token equals the argument. -/
def User.removeRefreshToken (u : User) (token : Token) : User :=
  { u with refreshTokens := u.refreshTokens.filter (fun r => r.token != token) }

/-! ## Shared persistent state -/

structure DB where
  users : List User
  blacklist : List BlacklistEntry
deriving DecidableEq, Repr

/-- Models `User.findById`. -/
def findUser (users : List User) (id : String) : Option User :=
  users.find? (fun u => u.id == id)

/-- Models `user.save()`: write the document back by id. -/
def saveUser (users : List User) (u : User) : List User :=
  users.map (fun v => if v.id == u.id then u else v)

/-! ## TokenService (src/services/tokenService.js) -/

/-- The error messages `tokenService` throws, one constructor per distinct
`new Error(...)` string. -/
inductive TokenErr where
  /-- `'Token has been revoked'` — the spec taxonomy's TokenRevoked. -/
  | tokenRevoked
  /-- `'Invalid token'` (from JsonWebTokenError) — spec TokenInvalid. -/
  | tokenInvalid
  /-- `'Token expired'` — spec TokenExpired. -/
  | tokenExpired
  /-- `'User not found'` — spec UserNotFound. -/
  | userNotFound
  /-- `'Invalid refresh token'` — spec TokenInvalid for refresh kind. -/
  | invalidRefreshToken
  /-- `'Account is temporarily locked'` — spec AccountLocked. -/
  | accountLocked
deriving DecidableEq, Repr

/-- Models `generateAccessToken`: sign the payload with a 15-minute expiry
and the fixed issuer and audience. -/
def TokenService.generateAccessToken (payload : Claims) (now : Nat) : Token :=
  .jwt { payload := payload, iat := now / 1000, exp := now / 1000 + 15 * 60,
         iss := jwtIssuer, aud := jwtAudience, secret := jwtSecret }

/-- Models `generateRefreshToken`: sign the payload with a 7-day expiry. -/
def TokenService.generateRefreshToken (payload : Claims) (now : Nat) : Token :=
  .jwt { payload := payload, iat := now / 1000,
         exp := now / 1000 + 7 * 24 * 60 * 60,
         iss := jwtIssuer, aud := jwtAudience, secret := jwtSecret }

/-- Sets `lastUsed` on the first record whose token matches, as
`user.refreshTokens.find(rt => rt.token === token)` followed by the
mutation does. -/
def updateLastUsed : List RefreshTokenRec → Token → Nat → List RefreshTokenRec
  | [], _, _ => []
  | r :: rs, t, now =>
    if r.token == t then { r with lastUsed := now } :: rs
    else r :: updateLastUsed rs t now

/-- Models `tokenService.verifyToken(token, type)`.  Order as in the
source: blacklist lookup first, then `jwt.verify`, then — for refresh
tokens — the user lookup, the live-record check, and the `lastUsed`
update (which saves the user).  Returns the decoded claims together with
the possibly-updated database. -/
def TokenService.verifyToken (db : DB) (token : Token) (type : String)
    (now : Nat) : Except TokenErr Claims × DB :=
  if TokenBlacklist.isBlacklisted db.blacklist token then
    (.error .tokenRevoked, db)
  else
    match jwtVerify token jwtSecret jwtIssuer jwtAudience now with
    | .error .jsonWebTokenError => (.error .tokenInvalid, db)
    | .error .tokenExpiredError => (.error .tokenExpired, db)
    | .ok decoded =>
      if type == "refresh" then
        match findUser db.users decoded.id with
        | none => (.error .userNotFound, db)
        | some user =>
          let hasValidRefreshToken := user.refreshTokens.any
            (fun rt => rt.token == token && decide (now < rt.expiresAt))
          if !hasValidRefreshToken then (.error .invalidRefreshToken, db)
          else
            let user2 := { user with
              refreshTokens := updateLastUsed user.refreshTokens token now }
            (.ok decoded, { db with users := saveUser db.users user2 })
      else (.ok decoded, db)

/-- Models `tokenService.blacklistToken`: decode the token for its expiry
(a failed decode or a falsy `exp` claim raises, which the catch reports as
`false`), call the store-level insert, and catch every store error as
`false`; success is `true`. -/
def TokenService.blacklistToken (bl : List BlacklistEntry) (token : Token)
    (type userId : String) (reason : String) (userAgent ip : Option String)
    (now : Nat) : List BlacklistEntry × Bool :=
  match jwtDecode token with
  | none => (bl, false)
  | some j =>
    if j.exp == 0 then (bl, false)
    else
      let expiresAt := j.exp * 1000
      match TokenBlacklist.blacklistToken bl token type userId expiresAt reason
          userAgent ip now with
      | .ok (bl2, _) => (bl2, true)
      | .error _ => (bl, false)

/-- The result object of a successful rotation. -/
structure RotateResult where
  accessToken : Token
  refreshToken : Token
  userId : String
  userName : String
  userEmail : String
  userRole : String
deriving DecidableEq, Repr

/-- The write half of `rotateTokens`, everything after `verifyToken`
succeeded: re-fetch the user, reject a locked account, generate the new
pair, blacklist the old refresh token with reason `'rotated'` (the boolean
result is ignored by the source), remove the old record (saved), then add
the new record with a 7-day expiry (saved). -/
def TokenService.rotateWritePhase (db : DB) (refreshToken : Token)
    (decoded : Claims) (userAgent ip : Option String) (now : Nat) :
    Except TokenErr RotateResult × DB :=
  match findUser db.users decoded.id with
  | none => (.error .userNotFound, db)
  | some user =>
    if user.isLocked now then (.error .accountLocked, db)
    else
      let payload : Claims :=
        { id := user.id, role := user.role, email := user.email }
      let newAccessToken := TokenService.generateAccessToken payload now
      let newRefreshToken := TokenService.generateRefreshToken payload now
      let (bl2, _ok) := TokenService.blacklistToken db.blacklist refreshToken
        "refresh" user.id "rotated" userAgent ip now
      let db2 := { db with blacklist := bl2 }
      let user2 := User.removeRefreshToken user refreshToken
      let db3 := { db2 with users := saveUser db2.users user2 }
      let refreshTokenExpiry := now + 7 * 24 * 60 * 60 * 1000
      let user3 := User.addRefreshToken user2 newRefreshToken
        refreshTokenExpiry userAgent ip now
      let db4 := { db3 with users := saveUser db3.users user3 }
      (.ok { accessToken := newAccessToken, refreshToken := newRefreshToken,
             userId := user.id, userName := user.name,
             userEmail := user.email, userRole := user.role }, db4)

/-- Models `tokenService.rotateTokens`: verify the old refresh token, then
run the write phase. -/
def TokenService.rotateTokens (db : DB) (refreshToken : Token)
    (userAgent ip : Option String) (now : Nat) :
    Except TokenErr RotateResult × DB :=
  match TokenService.verifyToken db refreshToken "refresh" now with
  | (.error e, db1) => (.error e, db1)
  | (.ok decoded, db1) =>
    TokenService.rotateWritePhase db1 refreshToken decoded userAgent ip now

/-- Two concurrent `rotateTokens` calls on the same refresh token, in the
interleaving where both async verifications complete before either write
phase runs (each call performs its own steps in program order; `now1` and
`now2` are the two calls' clock readings). -/
def TokenService.rotateRace (db : DB) (t : Token) (userAgent ip : Option String)
    (now1 now2 : Nat) :
    Except TokenErr RotateResult × Except TokenErr RotateResult × DB :=
  let (v1, db1) := TokenService.verifyToken db t "refresh" now1
  let (v2, db2) := TokenService.verifyToken db1 t "refresh" now2
  let (r1, db3) :=
    match v1 with
    | .error e => ((.error e : Except TokenErr RotateResult), db2)
    | .ok d => TokenService.rotateWritePhase db2 t d userAgent ip now1
  let (r2, db4) :=
    match v2 with
    | .error e => ((.error e : Except TokenErr RotateResult), db3)
    | .ok d => TokenService.rotateWritePhase db3 t d userAgent ip now2
  (r1, r2, db4)

/-! ## SSEService (src/unnamed/part_002) -/

/-- One replay-log entry, as pushed by `addToHistory`. -/
structure SSEEvent where
  id : Nat
  event : String
  data : String
  timestamp : Nat
deriving DecidableEq, Repr

/-- An SSE response handle: identity plus the `writableEnded` flag that
`sendEvent` and `closeUserConnections` consult. -/
structure SSEConn where
  connId : String
  writableEnded : Bool
deriving DecidableEq, Repr

/-- JS `Map.prototype.has` on an association list. -/
def mapHas {α : Type} (m : List (String × α)) (k : String) : Bool :=
  m.any (fun p => p.1 == k)

/-- JS `Map.prototype.get` on an association list. -/
def mapGet {α : Type} (m : List (String × α)) (k : String) : Option α :=
  (m.find? (fun p => p.1 == k)).map (fun p => p.2)

/-- JS `Map.prototype.delete` on an association list. -/
def mapDelete {α : Type} (m : List (String × α)) (k : String) :
    List (String × α) :=
  m.filter (fun p => p.1 != k)

/-- JS `Map.prototype.set` on an association list. -/
def mapSet {α : Type} (m : List (String × α)) (k : String) (v : α) :
    List (String × α) :=
  if mapHas m k then m.map (fun p => if p.1 == k then (k, v) else p)
  else m ++ [(k, v)]

/-- The mutable fields of the SSEService singleton. -/
structure SSEState where
  connections : List (String × List SSEConn)
  lastEventId : Nat
  eventHistory : List SSEEvent
deriving DecidableEq, Repr

def maxHistorySize : Nat := 100

/-- Models `addToHistory`: push, then shift once if the length now exceeds
`maxHistorySize`. -/
def SSEService.addToHistory (hist : List SSEEvent) (e : SSEEvent) :
    List SSEEvent :=
  let h2 := hist ++ [e]
  if maxHistorySize < h2.length then h2.drop 1 else h2

/-- Models `replayEvents`: the events sent are
`eventHistory.filter(event => event.id > lastEventId)` in history order. -/
def SSEService.replayEvents (hist : List SSEEvent) (lastEventId : Nat) :
    List SSEEvent :=
  hist.filter (fun e => decide (lastEventId < e.id))

/-- Models `broadcastToUser`: nothing happens when the user has no
connection set; otherwise increment the counter, record the event in
history, and send it to every connection of the user whose stream is not
ended (`sendEvent` drops ended streams).  Returns the new state and the
deliveries made. -/
def SSEService.broadcastToUser (s : SSEState) (userId : String)
    (event data : String) (now : Nat) : SSEState × List (SSEConn × SSEEvent) :=
  if !(mapHas s.connections userId) then (s, [])
  else
    let eventId := s.lastEventId + 1
    let ev : SSEEvent :=
      { id := eventId, event := event, data := data, timestamp := now }
    let hist := SSEService.addToHistory s.eventHistory ev
    let conns := (mapGet s.connections userId).getD []
    let sent := (conns.filter (fun c => !c.writableEnded)).map (fun c => (c, ev))
    ({ s with lastEventId := eventId, eventHistory := hist }, sent)

/-- Models `broadcastToAll`: increment the counter, record the event, send
to every connection of every user (ended streams dropped by
`sendEvent`). -/
def SSEService.broadcastToAll (s : SSEState) (event data : String)
    (now : Nat) : SSEState × List (SSEConn × SSEEvent) :=
  let eventId := s.lastEventId + 1
  let ev : SSEEvent :=
    { id := eventId, event := event, data := data, timestamp := now }
  let hist := SSEService.addToHistory s.eventHistory ev
  let sent := s.connections.flatMap
    (fun p => (p.2.filter (fun c => !c.writableEnded)).map (fun c => (c, ev)))
  ({ s with lastEventId := eventId, eventHistory := hist }, sent)

/-- Models `closeUserConnections`: no-op when the user has no entry;
otherwise every not-yet-ended connection of the user is sent a
`force-disconnect` event (each such `sendEvent` with no explicit id
increments `lastEventId`) and ended, and the user's entry is deleted.
Returns the new state and the connections that were notified. -/
def SSEService.closeUserConnections (s : SSEState) (userId : String) :
    SSEState × List SSEConn :=
  if !(mapHas s.connections userId) then (s, [])
  else
    let conns := (mapGet s.connections userId).getD []
    let notified := conns.filter (fun c => !c.writableEnded)
    ({ s with connections := mapDelete s.connections userId,
              lastEventId := s.lastEventId + notified.length }, notified)

/-! ## RealtimeService (src/services/realtimeService.js) -/

/-- The value stored in `socketUsers`. -/
structure SocketInfo where
  userId : String
  role : String
  email : String
  connectedAt : Nat
  ip : Option String
deriving DecidableEq, Repr

/-- The mutable fields of the RealtimeService singleton plus the parts of
the socket.io server it reads: the namespace's live-socket set
(`io.sockets.sockets`), the adapter's rooms, and a log of events emitted
to individual sockets. -/
structure RTState where
  connectedUsers : List (String × List String)
  socketUsers : List (String × SocketInfo)
  sockets : List String
  rooms : List (String × List String)
  emitted : List (String × String)
deriving DecidableEq, Repr

/-- Models `handleDisconnection(socket, reason)`: drop the socket id from
the user's set, deleting the user's entry when the set becomes empty, and
delete the socket's `socketUsers` entry. -/
def RealtimeService.handleDisconnection (s : RTState)
    (userId socketId : String) : RTState :=
  let cu :=
    match mapGet s.connectedUsers userId with
    | none => s.connectedUsers
    | some set =>
      let set2 := set.filter (fun x => x != socketId)
      if set2.length == 0 then mapDelete s.connectedUsers userId
      else mapSet s.connectedUsers userId set2
  { s with connectedUsers := cu,
           socketUsers := mapDelete s.socketUsers socketId }

/-- Models `socket.disconnect(true)` for an authenticated socket: the
socket.io library removes the socket from the namespace and from every
room, and the server-side `disconnect` event runs `handleDisconnection`
synchronously. -/
def RealtimeService.socketDisconnect (s : RTState)
    (userId socketId : String) : RTState :=
  let s1 := { s with
    sockets := s.sockets.filter (fun x => x != socketId),
    rooms := s.rooms.map (fun p => (p.1, p.2.filter (fun x => x != socketId))) }
  RealtimeService.handleDisconnection s1 userId socketId

/-- The body of the `userSockets.forEach` loop in `disconnectUser`:
look the id up in `io.sockets.sockets`; when live, emit
`force-disconnect` to it and disconnect it. -/
def RealtimeService.disconnectStep (userId : String) (acc : RTState)
    (sid : String) : RTState :=
  if acc.sockets.contains sid then
    RealtimeService.socketDisconnect
      { acc with emitted := acc.emitted ++ [(sid, "force-disconnect")] }
      userId sid
  else acc

/-- Models `disconnectUser(userId, reason)`: no-op when the user has no
entry; otherwise iterate over the user's socket-id set. -/
def RealtimeService.disconnectUser (s : RTState) (userId : String) : RTState :=
  if !(mapHas s.connectedUsers userId) then s
  else ((mapGet s.connectedUsers userId).getD []).foldl
    (RealtimeService.disconnectStep userId) s

/-- Equality of `Except` results is decidable when both components are. -/
instance {ε α : Type} [DecidableEq ε] [DecidableEq α] :
    DecidableEq (Except ε α) := fun x y =>
  match x, y with
  | .ok a, .ok b =>
    if h : a = b then .isTrue (by rw [h]) else .isFalse (by simp [h])
  | .error a, .error b =>
    if h : a = b then .isTrue (by rw [h]) else .isFalse (by simp [h])
  | .ok _, .error _ => .isFalse (by simp)
  | .error _, .ok _ => .isFalse (by simp)

/-! ## Concrete states used by the evaluation theorems and witnesses -/

def exPayload : Claims := { id := "u1", role := "user", email := "u@x.com" }

/-- A refresh token issued at t = 1000000000000 ms. -/
def exRefreshTok : Token := TokenService.generateRefreshToken exPayload 1000000000000

def exRec : RefreshTokenRec :=
  { token := exRefreshTok, expiresAt := 1000000000000 + 604800000,
    createdAt := 1000000000000, lastUsed := 1000000000000,
    userAgent := none, ip := none }

def exUser : User :=
  { id := "u1", name := "U", email := "u@x.com", role := "user",
    refreshTokens := [exRec], lockUntil := none }

def exDB : DB := { users := [exUser], blacklist := [] }

/-- An access token that expired at second 1. -/
def staleTok : Token :=
  .jwt { payload := exPayload, iat := 0, exp := 1, iss := jwtIssuer,
         aud := jwtAudience, secret := jwtSecret }

def staleEntry : BlacklistEntry :=
  { token := staleTok, type := "access", userId := "u1", reason := "logout",
    expiresAt := 1000, blacklistedAt := 0, userAgent := none, ip := none }

def staleDB : DB := { users := [], blacklist := [staleEntry] }

/-! ## Claim theorems -/

/-- C1: the claim says that of two concurrent rotate calls presenting the
same refresh token at most one succeeds, the loser failing on the
blacklist's unique-constraint insert, and two valid successor pairs are
never produced.  The code violates this: in the interleaving where both
calls verify the token before either write phase runs, both rotations
succeed and produce two distinct refresh tokens that both verify
afterwards — the blacklist insert never serializes them, because the
store absorbs duplicate-key errors as success, `rotateTokens` ignores the
insert's boolean result, and (reason `'rotated'` not being in the schema
enum) the insert in fact always fails validation and is swallowed. -/
theorem rotateRace_produces_two_valid_pairs :
    (TokenService.rotateRace exDB exRefreshTok none none
        1000000100000 1000000101000).1 =
      .ok { accessToken := TokenService.generateAccessToken exPayload 1000000100000,
            refreshToken := TokenService.generateRefreshToken exPayload 1000000100000,
            userId := "u1", userName := "U", userEmail := "u@x.com",
            userRole := "user" } ∧
    (TokenService.rotateRace exDB exRefreshTok none none
        1000000100000 1000000101000).2.1 =
      .ok { accessToken := TokenService.generateAccessToken exPayload 1000000101000,
            refreshToken := TokenService.generateRefreshToken exPayload 1000000101000,
            userId := "u1", userName := "U", userEmail := "u@x.com",
            userRole := "user" } ∧
    TokenService.generateRefreshToken exPayload 1000000100000 ≠
      TokenService.generateRefreshToken exPayload 1000000101000 ∧
    (TokenService.verifyToken
        (TokenService.rotateRace exDB exRefreshTok none none
          1000000100000 1000000101000).2.2
        (TokenService.generateRefreshToken exPayload 1000000100000)
        "refresh" 1000000101000).1 = .ok exPayload ∧
    (TokenService.verifyToken
        (TokenService.rotateRace exDB exRefreshTok none none
          1000000100000 1000000101000).2.2
        (TokenService.generateRefreshToken exPayload 1000000101000)
        "refresh" 1000000101000).1 = .ok exPayload := by
  refine ⟨by decide, by decide, by decide, by decide, by decide⟩

/-- C2: the claim says every successful rotation leaves a blacklist entry
for the old token with reason `'rotated'`, together with record removal
and insertion, atomically.  The code violates it: `'rotated'` is not in
the blacklist schema's `reason` enum `['logout', 'revoked', 'security',
'expired']`, so the insert fails mongoose validation; the service catches
the error and returns `false`, which `rotateTokens` ignores.  Rotation
succeeds with the record removed and the new record inserted but no
blacklist entry at all — exactly the partial state the claim rules out. -/
theorem rotate_leaves_old_token_unblacklisted :
    (TokenService.rotateTokens exDB exRefreshTok none none 1000000100000).1.isOk
      = true ∧
    validReason "rotated" = false ∧
    TokenBlacklist.isBlacklisted
      (TokenService.rotateTokens exDB exRefreshTok none none
        1000000100000).2.blacklist exRefreshTok = false ∧
    ((findUser (TokenService.rotateTokens exDB exRefreshTok none none
        1000000100000).2.users "u1").getD exUser).refreshTokens.map
        (fun r => r.token) =
      [TokenService.generateRefreshToken exPayload 1000000100000] := by
  refine ⟨by decide, by decide, by decide, by decide⟩

/-- C3: a token with a matching blacklist entry fails verification with
TokenRevoked (`'Token has been revoked'`), for either kind, with no state
change; the blacklist lookup precedes the signature/expiry check, so this
holds even for a token that is also expired or malformed. -/
theorem verifyToken_blacklisted_revoked (db : DB) (t : Token) (type : String)
    (now : Nat) (h : TokenBlacklist.isBlacklisted db.blacklist t = true) :
    TokenService.verifyToken db t type now = (.error .tokenRevoked, db) := by
  simp [TokenService.verifyToken, h]

/-- Witness for C3 at a token that is both blacklisted and expired: the
result is TokenRevoked, not TokenExpired. -/
theorem verifyToken_blacklisted_revoked_witness :
    TokenBlacklist.isBlacklisted staleDB.blacklist staleTok = true ∧
    jwtVerify staleTok jwtSecret jwtIssuer jwtAudience 1000000000000 =
      .error .tokenExpiredError ∧
    TokenService.verifyToken staleDB staleTok "access" 1000000000000 =
      (.error .tokenRevoked, staleDB) :=
  ⟨by decide, by decide,
   verifyToken_blacklisted_revoked staleDB staleTok "access" 1000000000000
     (by decide)⟩

/-- C8: a correctly signed access token whose expiry has not passed and
which has no blacklist entry verifies successfully and returns exactly the
claims it was issued for, with no state change. -/
theorem verifyToken_valid_access_roundtrip (db : DB) (payload : Claims)
    (tIssue now : Nat)
    (hbl : TokenBlacklist.isBlacklisted db.blacklist
      (TokenService.generateAccessToken payload tIssue) = false)
    (hexp : now < (tIssue / 1000 + 15 * 60) * 1000) :
    TokenService.verifyToken db (TokenService.generateAccessToken payload tIssue)
      "access" now = (.ok payload, db) := by
  have h1 : ¬ ((tIssue / 1000 + 900) * 1000 ≤ now) := by omega
  have h2 : (("access" : String) == "refresh") = false := by decide
  simp only [TokenService.generateAccessToken] at hbl
  norm_num at hbl
  simp [TokenService.verifyToken, TokenService.generateAccessToken, jwtVerify,
    hbl, h1, h2]

/-- Witness for C8: the concrete scenario of the spec — a token issued for
user u1 with role "user" verifies back to those claims. -/
theorem verifyToken_valid_access_roundtrip_witness :
    TokenBlacklist.isBlacklisted exDB.blacklist
      (TokenService.generateAccessToken exPayload 1000000000000) = false ∧
    1000000100000 < (1000000000000 / 1000 + 15 * 60) * 1000 ∧
    TokenService.verifyToken exDB
      (TokenService.generateAccessToken exPayload 1000000000000)
      "access" 1000000100000 =
      (.ok { id := "u1", role := "user", email := "u@x.com" }, exDB) :=
  ⟨by decide, by decide,
   verifyToken_valid_access_roundtrip exDB exPayload 1000000000000
     1000000100000 (by decide) (by decide)⟩

/-- C10: blacklisting a token that already has a blacklist entry is
idempotent and still reports success: the duplicate unique-key violation
(code 11000) is absorbed by the store-level method, which returns `true`
with the store unchanged, and the service-level wrapper therefore also
reports success with the store unchanged.  (The arguments must pass schema
validation, since mongoose validates before the unique index is hit.) -/
theorem blacklistToken_idempotent (bl : List BlacklistEntry) (token : Token)
    (type userId reason : String) (expiresAt : Nat) (ua ip : Option String)
    (now : Nat)
    (hdup : bl.any (fun x => x.token == token) = true)
    (htype : validType type = true) (hreason : validReason reason = true) :
    TokenBlacklist.blacklistToken bl token type userId expiresAt reason ua ip now
      = .ok (bl, true) ∧
    (∀ j, jwtDecode token = some j → j.exp ≠ 0 →
      TokenService.blacklistToken bl token type userId reason ua ip now
        = (bl, true)) := by
  have hstore : ∀ e : Nat,
      TokenBlacklist.blacklistToken bl token type userId e reason ua ip now
        = .ok (bl, true) := by
    intro e
    simp [TokenBlacklist.blacklistToken, TokenBlacklist.create, htype, hreason,
      hdup]
  refine ⟨hstore expiresAt, fun j hj hexp => ?_⟩
  simp [TokenService.blacklistToken, hj, hexp, hstore]

/-- Witness for C10: re-blacklisting the already-blacklisted stale token
with reason "logout" succeeds and leaves the store unchanged. -/
theorem blacklistToken_idempotent_witness :
    staleDB.blacklist.any (fun x => x.token == staleTok) = true ∧
    TokenBlacklist.blacklistToken staleDB.blacklist staleTok "access" "u1"
      1000 "logout" none none 5 = .ok (staleDB.blacklist, true) :=
  ⟨by decide,
   (blacklistToken_idempotent staleDB.blacklist staleTok "access" "u1"
     "logout" 1000 none none 5 (by decide) (by decide) (by decide)).1⟩

/-- When some record in the list carries the given token, `updateLastUsed`
yields a record with that token whose `lastUsed` is the new time. -/
theorem updateLastUsed_mem (l : List RefreshTokenRec) (t : Token) (now : Nat)
    (h : ∃ r ∈ l, r.token = t) :
    ∃ r ∈ updateLastUsed l t now, r.token = t ∧ r.lastUsed = now := by
  induction l with
  | nil => simp at h
  | cons a as ih =>
    by_cases hat : a.token = t
    · refine ⟨{ a with lastUsed := now }, ?_, hat, rfl⟩
      simp [updateLastUsed, hat]
    · obtain ⟨r, hr, hrt⟩ := h
      rcases List.mem_cons.mp hr with rfl | hmem
      · exact absurd hrt hat
      · obtain ⟨r2, hr2, hr2t, hr2u⟩ := ih ⟨r, hmem, hrt⟩
        refine ⟨r2, ?_, hr2t, hr2u⟩
        have hbeq : (a.token == t) = false := by
          simp [hat]
        simp [updateLastUsed, hbeq]
        exact Or.inr hr2

/-- C7: refresh-kind verification of an unblacklisted, well-signed token
fails with `'Invalid refresh token'` (the TokenInvalid of the spec
taxonomy) when the claimed subject's record set holds no live matching
record, and on success saves the user with the matching record's
`lastUsed` stamped to the current time. -/
theorem verifyToken_refresh_record_spec (db : DB) (t : Token) (now : Nat)
    (c : Claims) (u : User)
    (hbl : TokenBlacklist.isBlacklisted db.blacklist t = false)
    (hjwt : jwtVerify t jwtSecret jwtIssuer jwtAudience now = .ok c)
    (hu : findUser db.users c.id = some u) :
    (u.refreshTokens.any
        (fun rt => rt.token == t && decide (now < rt.expiresAt)) = false →
      TokenService.verifyToken db t "refresh" now =
        (.error .invalidRefreshToken, db)) ∧
    (u.refreshTokens.any
        (fun rt => rt.token == t && decide (now < rt.expiresAt)) = true →
      TokenService.verifyToken db t "refresh" now =
        (.ok c, { db with users := (saveUser db.users
          { u with refreshTokens := updateLastUsed u.refreshTokens t now }) }) ∧
      ∃ r ∈ updateLastUsed u.refreshTokens t now,
        r.token = t ∧ r.lastUsed = now) := by
  constructor
  · intro hno
    simp [TokenService.verifyToken, hbl, hjwt, hu, hno]
  · intro hyes
    refine ⟨by simp [TokenService.verifyToken, hbl, hjwt, hu, hyes], ?_⟩
    obtain ⟨rt, hrt, hrtp⟩ := List.any_eq_true.mp hyes
    have : rt.token = t := by
      have := (Bool.and_eq_true _ _).mp hrtp
      exact beq_iff_eq.mp this.1
    exact updateLastUsed_mem u.refreshTokens t now ⟨rt, hrt, this⟩

/-- Witness for C7: the concrete refresh verification succeeds and stamps
`lastUsed`. -/
theorem verifyToken_refresh_record_spec_witness :
    TokenService.verifyToken exDB exRefreshTok "refresh" 1000000100000 =
      (.ok exPayload, { exDB with users := (saveUser exDB.users
        { exUser with refreshTokens :=
            updateLastUsed exUser.refreshTokens exRefreshTok 1000000100000 }) }) ∧
    ∃ r ∈ updateLastUsed exUser.refreshTokens exRefreshTok 1000000100000,
      r.token = exRefreshTok ∧ r.lastUsed = 1000000100000 :=
  (verifyToken_refresh_record_spec exDB exRefreshTok 1000000100000 exPayload
    exUser (by decide) (by decide) (by decide)).2 (by decide)

/-- Insertion keeps the length. -/
theorem length_insertByCreatedAt (r : RefreshTokenRec)
    (l : List RefreshTokenRec) :
    (insertByCreatedAt r l).length = l.length + 1 := by
  induction l with
  | nil => rfl
  | cons x xs ih =>
    unfold insertByCreatedAt
    by_cases h : r.createdAt ≤ x.createdAt
    · simp [h]
    · simp [h, ih]

/-- Insertion is a permutation of consing. -/
theorem perm_insertByCreatedAt (r : RefreshTokenRec)
    (l : List RefreshTokenRec) : (insertByCreatedAt r l).Perm (r :: l) := by
  induction l with
  | nil => exact List.Perm.refl _
  | cons x xs ih =>
    unfold insertByCreatedAt
    by_cases h : r.createdAt ≤ x.createdAt
    · simp only [h, if_true]
      exact List.Perm.refl _
    · simp only [h, if_false]
      exact (ih.cons x).trans (List.Perm.swap r x xs)

/-- The stable sort keeps the length. -/
theorem length_sortByCreatedAt (l : List RefreshTokenRec) :
    (sortByCreatedAt l).length = l.length := by
  induction l with
  | nil => rfl
  | cons x xs ih =>
    unfold sortByCreatedAt at ih ⊢
    simp [List.foldr_cons, length_insertByCreatedAt, ih]

/-- The stable sort is a permutation of its input. -/
theorem perm_sortByCreatedAt (l : List RefreshTokenRec) :
    (sortByCreatedAt l).Perm l := by
  induction l with
  | nil => exact List.Perm.refl _
  | cons x xs ih =>
    unfold sortByCreatedAt at ih ⊢
    simp only [List.foldr_cons]
    exact (perm_insertByCreatedAt x _).trans (ih.cons x)

/-- Insertion preserves sortedness by creation time. -/
theorem sorted_insertByCreatedAt (r : RefreshTokenRec)
    (l : List RefreshTokenRec)
    (h : l.Pairwise (fun a b => a.createdAt ≤ b.createdAt)) :
    (insertByCreatedAt r l).Pairwise (fun a b => a.createdAt ≤ b.createdAt) := by
  induction l with
  | nil => simp [insertByCreatedAt]
  | cons x xs ih =>
    obtain ⟨hx, hxs⟩ := List.pairwise_cons.mp h
    unfold insertByCreatedAt
    by_cases hle : r.createdAt ≤ x.createdAt
    · simp only [hle, if_true]
      refine List.pairwise_cons.mpr ⟨?_, h⟩
      intro y hy
      rcases List.mem_cons.mp hy with rfl | hmem
      · exact hle
      · exact Nat.le_trans hle (hx y hmem)
    · simp only [hle, if_false]
      refine List.pairwise_cons.mpr ⟨?_, ih hxs⟩
      intro y hy
      have : y ∈ r :: xs := (perm_insertByCreatedAt r xs).mem_iff.mp hy
      rcases List.mem_cons.mp this with rfl | hmem
      · omega
      · exact hx y hmem

/-- The stable sort is sorted by creation time. -/
theorem sorted_sortByCreatedAt (l : List RefreshTokenRec) :
    (sortByCreatedAt l).Pairwise (fun a b => a.createdAt ≤ b.createdAt) := by
  induction l with
  | nil => simp [sortByCreatedAt]
  | cons x xs ih =>
    unfold sortByCreatedAt at ih ⊢
    simp only [List.foldr_cons]
    exact sorted_insertByCreatedAt x _ ih

/-- C4: with at most 5 records a call to `addRefreshToken` leaves at most
5 records, and when exactly 5 are present the call evicts exactly one
record — one of earliest creation time — and appends the new record: the
result is the tail of the stable creation-time sort plus the new record,
and evicted-plus-kept is a permutation of the original set. -/
theorem addRefreshToken_bound_and_fifo (u : User) (t : Token) (e : Nat)
    (ua ip : Option String) (now : Nat) (h5 : u.refreshTokens.length ≤ 5) :
    (User.addRefreshToken u t e ua ip now).refreshTokens.length ≤ 5 ∧
    (u.refreshTokens.length = 5 →
      ∃ evicted rest,
        sortByCreatedAt u.refreshTokens = evicted :: rest ∧
        (User.addRefreshToken u t e ua ip now).refreshTokens =
          rest ++ [{ token := t, expiresAt := e, createdAt := now,
                     lastUsed := now, userAgent := ua, ip := ip }] ∧
        evicted ∈ u.refreshTokens ∧
        (∀ r ∈ u.refreshTokens, evicted.createdAt ≤ r.createdAt) ∧
        (evicted :: rest).Perm u.refreshTokens) := by
  constructor
  · unfold User.addRefreshToken
    by_cases hge : 5 ≤ u.refreshTokens.length
    · simp [hge, length_sortByCreatedAt]
      omega
    · simp [hge]
      omega
  · intro hlen
    have hge : 5 ≤ u.refreshTokens.length := by omega
    have hslen : (sortByCreatedAt u.refreshTokens).length = 5 := by
      rw [length_sortByCreatedAt]; exact hlen
    obtain ⟨evicted, rest, hsort⟩ :
        ∃ a l, sortByCreatedAt u.refreshTokens = a :: l := by
      cases hcc : sortByCreatedAt u.refreshTokens with
      | nil => rw [hcc] at hslen; simp at hslen
      | cons a l => exact ⟨a, l, rfl⟩
    have hperm : (evicted :: rest).Perm u.refreshTokens := by
      rw [← hsort]
      exact perm_sortByCreatedAt u.refreshTokens
    refine ⟨evicted, rest, hsort, ?_, ?_, ?_, hperm⟩
    · unfold User.addRefreshToken
      simp [hge, hsort]
    · exact hperm.mem_iff.mp (List.mem_cons_self _ _)
    · have hpair := sorted_sortByCreatedAt u.refreshTokens
      rw [hsort] at hpair
      have hhead := (List.pairwise_cons.mp hpair).1
      intro r hr
      rcases List.mem_cons.mp (hperm.mem_iff.mpr hr) with rfl | hmem
      · exact Nat.le_refl _
      · exact hhead r hmem

/-- A user at the 5-record cap, records listed out of creation order. -/
def exUser5 : User :=
  { id := "u2", name := "V", email := "v@x.com", role := "user",
    refreshTokens := [
      { token := .raw "t3", expiresAt := 100, createdAt := 3, lastUsed := 3,
        userAgent := none, ip := none },
      { token := .raw "t1", expiresAt := 100, createdAt := 1, lastUsed := 1,
        userAgent := none, ip := none },
      { token := .raw "t5", expiresAt := 100, createdAt := 5, lastUsed := 5,
        userAgent := none, ip := none },
      { token := .raw "t2", expiresAt := 100, createdAt := 2, lastUsed := 2,
        userAgent := none, ip := none },
      { token := .raw "t4", expiresAt := 100, createdAt := 4, lastUsed := 4,
        userAgent := none, ip := none }],
    lockUntil := none }

/-- Witness for C4, the spec's concrete scenario: at the cap, adding t6
keeps 5 records and the survivor set is t2..t6 — t1, the oldest, is
gone. -/
theorem addRefreshToken_bound_and_fifo_witness :
    (User.addRefreshToken exUser5 (.raw "t6") 200 none none 6).refreshTokens.length ≤ 5 ∧
    (User.addRefreshToken exUser5 (.raw "t6") 200 none none 6).refreshTokens.map
        (fun r => r.token) =
      [.raw "t2", .raw "t3", .raw "t4", .raw "t5", .raw "t6"] :=
  ⟨(addRefreshToken_bound_and_fifo exUser5 (.raw "t6") 200 none none 6
      (by decide)).1,
   by decide⟩

/-- Membership in the ring after an append: either retained from before or
the new event. -/
theorem mem_addToHistory (hist : List SSEEvent) (e x : SSEEvent)
    (h : x ∈ SSEService.addToHistory hist e) : x ∈ hist ∨ x = e := by
  unfold SSEService.addToHistory at h
  by_cases hc : maxHistorySize < (hist ++ [e]).length
  · simp only [hc, if_true] at h
    have := List.drop_subset 1 (hist ++ [e]) h
    rcases List.mem_append.mp this with h1 | h2
    · exact Or.inl h1
    · exact Or.inr (List.mem_singleton.mp h2)
  · simp only [hc, if_false] at h
    rcases List.mem_append.mp h with h1 | h2
    · exact Or.inl h1
    · exact Or.inr (List.mem_singleton.mp h2)

/-- C5: the replay log keeps at most 100 events; at the cap a push evicts
exactly the head, which under the ascending-id invariant is the oldest
event; and `replaySince` returns exactly the retained events with id
strictly greater than the cursor, in ascending id order, drawn only from
the retained ring (a cursor predating the window just yields the whole
retained suffix — a partial result, never an error). -/
theorem replayLog_bounded_and_ordered (hist : List SSEEvent) (e : SSEEvent)
    (n : Nat) (hsort : hist.Pairwise (fun a b => a.id < b.id))
    (hlen : hist.length ≤ 100) :
    (SSEService.addToHistory hist e).length ≤ 100 ∧
    (hist.length = 100 →
      ∃ hd tl, hist = hd :: tl ∧
        SSEService.addToHistory hist e = tl ++ [e] ∧
        ∀ x ∈ hist, hd.id ≤ x.id) ∧
    (SSEService.replayEvents hist n).Pairwise (fun a b => a.id < b.id) ∧
    (∀ x ∈ SSEService.replayEvents hist n, n < x.id) ∧
    (∀ x ∈ SSEService.replayEvents hist n, x ∈ hist) ∧
    (∀ x ∈ hist, n < x.id → x ∈ SSEService.replayEvents hist n) := by
  refine ⟨?_, ?_, ?_, ?_, ?_, ?_⟩
  · have hlen2 : (hist ++ [e]).length = hist.length + 1 := by simp
    unfold SSEService.addToHistory maxHistorySize
    by_cases hc : 100 < (hist ++ [e]).length
    · rw [if_pos hc]
      simp only [List.length_drop, hlen2]
      omega
    · rw [if_neg hc]
      rw [hlen2] at hc
      omega
  · intro h100
    obtain ⟨hd, tl, rfl⟩ : ∃ a l, hist = a :: l := by
      cases hist with
      | nil => simp at h100
      | cons a l => exact ⟨a, l, rfl⟩
    refine ⟨hd, tl, rfl, ?_, ?_⟩
    · unfold SSEService.addToHistory maxHistorySize
      have hc : (100 : Nat) < ((hd :: tl) ++ [e]).length := by
        simp only [List.length_append, List.length_singleton, h100]
        omega
      rw [if_pos hc]
      simp
    · intro x hx
      have hp := (List.pairwise_cons.mp hsort).1
      rcases List.mem_cons.mp hx with rfl | hmem
      · exact Nat.le_refl _
      · exact Nat.le_of_lt (hp x hmem)
  · exact List.Pairwise.sublist (List.filter_sublist _) hsort
  · intro x hx
    unfold SSEService.replayEvents at hx
    have := List.of_mem_filter hx
    exact of_decide_eq_true this
  · intro x hx
    exact List.mem_of_mem_filter hx
  · intro x hx h
    unfold SSEService.replayEvents
    exact List.mem_filter.mpr ⟨hx, decide_eq_true h⟩

def ev1 : SSEEvent := { id := 1, event := "device-update", data := "a", timestamp := 1 }
def ev2 : SSEEvent := { id := 2, event := "device-update", data := "b", timestamp := 2 }
def ev3 : SSEEvent := { id := 3, event := "notification", data := "c", timestamp := 3 }

/-- Witness for C5: a three-event log replayed from cursor 1 yields
events 2 and 3 in order. -/
theorem replayLog_bounded_and_ordered_witness :
    (SSEService.addToHistory [ev1, ev2, ev3] ev3).length ≤ 100 ∧
    (SSEService.replayEvents [ev1, ev2, ev3] 1).Pairwise
      (fun a b => a.id < b.id) ∧
    SSEService.replayEvents [ev1, ev2, ev3] 1 = [ev2, ev3] :=
  ⟨(replayLog_bounded_and_ordered [ev1, ev2, ev3] ev3 1 (by decide)
      (by decide)).1,
   (replayLog_bounded_and_ordered [ev1, ev2, ev3] ev3 1 (by decide)
      (by decide)).2.2.1,
   by decide⟩

/-- A state with an assigned counter and event but no connections. -/
def sse0 : SSEState :=
  { connections := [], lastEventId := 7,
    eventHistory := [{ id := 7, event := "device-update", data := "d",
                       timestamp := 0 }] }

/-- C6 counterexample: `broadcastToUser` called for a user with zero
connections returns before touching the ID counter or the ring: no event
ID is assigned and nothing is appended to the history, contradicting the
claim's "for every call regardless of how many connections — including
zero". -/
theorem broadcastToUser_zero_connections_no_publish :
    SSEService.broadcastToUser sse0 "u1" "device-update" "d" 99 = (sse0, []) ∧
    (SSEService.broadcastToUser sse0 "u1" "device-update" "d" 99).1.lastEventId
      = 7 ∧
    (SSEService.broadcastToUser sse0 "u1" "device-update" "d"
      99).1.eventHistory.length = 1 := by
  refine ⟨by decide, by decide, by decide⟩

/-- C6 amended: `broadcastToAll` always assigns the next event ID
(counter + 1) and appends the event to the ring before fan-out, for any
number of connections including zero; `broadcastToUser` does the same
exactly when the target user has a connection entry and is a no-op
otherwise; and under the counter invariant (every retained id is at most
the counter) the freshly assigned ID strictly exceeds every previously
retained ID, so IDs strictly increase across the publish calls that assign
them. -/
theorem publish_assigns_monotonic_ids (s : SSEState) (uid event data : String)
    (now : Nat) :
    ((SSEService.broadcastToAll s event data now).1.lastEventId =
        s.lastEventId + 1 ∧
      (SSEService.broadcastToAll s event data now).1.eventHistory =
        SSEService.addToHistory s.eventHistory
          { id := s.lastEventId + 1, event := event, data := data,
            timestamp := now }) ∧
    (mapHas s.connections uid = true →
      (SSEService.broadcastToUser s uid event data now).1.lastEventId =
        s.lastEventId + 1 ∧
      (SSEService.broadcastToUser s uid event data now).1.eventHistory =
        SSEService.addToHistory s.eventHistory
          { id := s.lastEventId + 1, event := event, data := data,
            timestamp := now }) ∧
    (mapHas s.connections uid = false →
      SSEService.broadcastToUser s uid event data now = (s, [])) ∧
    ((∀ x ∈ s.eventHistory, x.id ≤ s.lastEventId) →
      (∀ x ∈ (SSEService.broadcastToAll s event data now).1.eventHistory,
        x.id ≤ (SSEService.broadcastToAll s event data now).1.lastEventId) ∧
      (∀ x ∈ s.eventHistory,
        x.id < (SSEService.broadcastToAll s event data now).1.lastEventId)) := by
  refine ⟨⟨rfl, rfl⟩, ?_, ?_, ?_⟩
  · intro h
    constructor
    · simp [SSEService.broadcastToUser, h]
    · simp [SSEService.broadcastToUser, h]
  · intro h
    simp [SSEService.broadcastToUser, h]
  · intro hinv
    constructor
    · intro x hx
      have hx2 : x ∈ SSEService.addToHistory s.eventHistory
          { id := s.lastEventId + 1, event := event, data := data,
            timestamp := now } := hx
      rcases mem_addToHistory _ _ _ hx2 with hmem | rfl
      · exact Nat.le_succ_of_le (hinv x hmem)
      · exact Nat.le_refl _
    · intro x hx
      exact Nat.lt_succ_of_le (hinv x hx)

/-- Witness for C6's amended claim: in the no-connection state,
`broadcastToAll` still assigns ID 8 and `broadcastToUser` is a no-op. -/
theorem publish_assigns_monotonic_ids_witness :
    (SSEService.broadcastToAll sse0 "device-update" "d" 99).1.lastEventId = 8 ∧
    SSEService.broadcastToUser sse0 "u1" "device-update" "d" 99 = (sse0, []) :=
  ⟨(publish_assigns_monotonic_ids sse0 "u1" "device-update" "d" 99).1.1,
   (publish_assigns_monotonic_ids sse0 "u1" "device-update" "d"
     99).2.2.1 (by decide)⟩

/-- A key that fails the `has` check has no entry. -/
theorem mapGet_eq_none_of_not_has {α : Type} (m : List (String × α))
    (k : String) (h : mapHas m k = false) : mapGet m k = none := by
  have h2 : m.any (fun p => p.1 == k) = false := h
  have hf : m.find? (fun p => p.1 == k) = none := by
    rw [List.find?_eq_none]
    intro x hx hpx
    have : m.any (fun p => p.1 == k) = true := List.any_eq_true.mpr ⟨x, hx, hpx⟩
    rw [this] at h2
    exact Bool.noConfusion h2
  simp [mapGet, hf]

/-- Deleting a key removes its entry. -/
theorem mapGet_mapDelete_self {α : Type} (m : List (String × α)) (k : String) :
    mapGet (mapDelete m k) k = none := by
  have hf : (m.filter (fun p => p.1 != k)).find? (fun p => p.1 == k) = none := by
    rw [List.find?_eq_none]
    intro x hx hpx
    have hmem := List.of_mem_filter hx
    exact bne_iff_ne.mp hmem (beq_iff_eq.mp hpx)
  simp [mapGet, mapDelete, hf]

/-- A key with no entry still has none after deleting another key. -/
theorem mapGet_mapDelete_none {α : Type} (m : List (String × α)) (k x : String)
    (h : mapGet m x = none) : mapGet (mapDelete m k) x = none := by
  have hf0 : m.find? (fun p => p.1 == x) = none := by
    cases hfind : m.find? (fun p => p.1 == x) with
    | none => rfl
    | some v => simp [mapGet, hfind] at h
  have hf : (m.filter (fun p => p.1 != k)).find? (fun p => p.1 == x) = none := by
    rw [List.find?_eq_none] at hf0 ⊢
    intro y hy
    exact hf0 y (List.mem_of_mem_filter hy)
  simp [mapGet, mapDelete, hf]

/-- Setting a key makes its entry the given value. -/
theorem mapGet_mapSet_self {α : Type} (m : List (String × α)) (k : String)
    (v : α) : mapGet (mapSet m k v) k = some v := by
  induction m with
  | nil =>
    unfold mapSet mapHas mapGet
    simp
  | cons p ps ih =>
    by_cases hp : (p.1 == k) = true
    · have hh : mapHas (p :: ps) k = true := by
        unfold mapHas
        simp [List.any_cons, hp]
      unfold mapSet
      rw [if_pos hh]
      unfold mapGet
      simp [List.find?_cons, beq_iff_eq.mp hp]
    · by_cases hps : mapHas ps k = true
      · have hh : mapHas (p :: ps) k = true := by
          unfold mapHas at hps ⊢
          simp only [List.any_cons, hps, Bool.or_true]
        have ih2 : mapGet (ps.map (fun q => if q.1 == k then (k, v) else q)) k
            = some v := by
          unfold mapSet at ih
          rw [if_pos hps] at ih
          exact ih
        unfold mapSet
        rw [if_pos hh]
        rw [List.map_cons, if_neg hp]
        unfold mapGet at ih2 ⊢
        rw [@List.find?_cons_of_neg (String × α) (fun q => q.1 == k) p _ hp]
        exact ih2
      · have hps' : mapHas ps k = false := by
          simpa using hps
        have hh : mapHas (p :: ps) k = false := by
          unfold mapHas at hps' ⊢
          simp only [List.any_cons, hps', Bool.or_false]
          simpa using hp
        have ih2 : mapGet (ps ++ [(k, v)]) k = some v := by
          unfold mapSet at ih
          rw [if_neg (by simp [hps'])] at ih
          exact ih
        unfold mapSet
        rw [if_neg (by simp [hh])]
        rw [List.cons_append]
        unfold mapGet at ih2 ⊢
        rw [@List.find?_cons_of_neg (String × α) (fun q => q.1 == k) p _ hp]
        exact ih2

/-- A socket fully torn down: gone from the namespace, notified, removed
from `socketUsers`, and in no room. -/
def RTDone (s : RTState) (x : String) : Prop :=
  x ∉ s.sockets ∧ (x, "force-disconnect") ∈ s.emitted ∧
  mapGet s.socketUsers x = none ∧ ∀ p ∈ s.rooms, x ∉ p.2

/-- Effect of one loop iteration on the namespace's socket set. -/
theorem disconnectStep_sockets_eq (uid sid : String) (acc : RTState) :
    (RealtimeService.disconnectStep uid acc sid).sockets =
      if acc.sockets.contains sid then
        acc.sockets.filter (fun x => x != sid)
      else acc.sockets := by
  unfold RealtimeService.disconnectStep RealtimeService.socketDisconnect
    RealtimeService.handleDisconnection
  by_cases hc : acc.sockets.contains sid = true
  · rw [if_pos hc, if_pos hc]
  · rw [if_neg hc, if_neg hc]

/-- Effect of one loop iteration on the target user's connection set. -/
theorem disconnectStep_cu (uid sid : String) (acc : RTState) :
    (mapGet (RealtimeService.disconnectStep uid acc sid).connectedUsers
      uid).getD [] =
      if acc.sockets.contains sid then
        ((mapGet acc.connectedUsers uid).getD []).filter (fun x => x != sid)
      else (mapGet acc.connectedUsers uid).getD [] := by
  unfold RealtimeService.disconnectStep RealtimeService.socketDisconnect
    RealtimeService.handleDisconnection
  by_cases hc : acc.sockets.contains sid = true
  · rw [if_pos hc, if_pos hc]
    dsimp only
    cases hcu : mapGet acc.connectedUsers uid with
    | none => simp [hcu]
    | some cur =>
      dsimp only
      by_cases h0 : ((cur.filter (fun x => x != sid)).length == 0) = true
      · have hemp : cur.filter (fun x => x != sid) = [] :=
          List.length_eq_zero.mp (by simpa using h0)
        rw [if_pos h0]
        simp [mapGet_mapDelete_self, hemp]
      · rw [if_neg h0]
        simp [mapGet_mapSet_self]
  · rw [if_neg hc, if_neg hc]

/-- One loop iteration never removes an emission. -/
theorem disconnectStep_emitted_mono (uid sid : String) (acc : RTState)
    (q : String × String) (h : q ∈ acc.emitted) :
    q ∈ (RealtimeService.disconnectStep uid acc sid).emitted := by
  unfold RealtimeService.disconnectStep RealtimeService.socketDisconnect
    RealtimeService.handleDisconnection
  by_cases hc : acc.sockets.contains sid = true
  · rw [if_pos hc]
    dsimp only
    exact List.mem_append_left _ h
  · rw [if_neg hc]
    exact h

/-- One loop iteration never resurrects a `socketUsers` entry. -/
theorem disconnectStep_socketUsers_none (uid sid x : String) (acc : RTState)
    (h : mapGet acc.socketUsers x = none) :
    mapGet (RealtimeService.disconnectStep uid acc sid).socketUsers x = none := by
  unfold RealtimeService.disconnectStep RealtimeService.socketDisconnect
    RealtimeService.handleDisconnection
  by_cases hc : acc.sockets.contains sid = true
  · rw [if_pos hc]
    dsimp only
    exact mapGet_mapDelete_none _ _ _ h
  · rw [if_neg hc]
    exact h

/-- One loop iteration never re-adds a socket to a room. -/
theorem disconnectStep_rooms_not_mem (uid sid x : String) (acc : RTState)
    (h : ∀ p ∈ acc.rooms, x ∉ p.2) :
    ∀ p ∈ (RealtimeService.disconnectStep uid acc sid).rooms, x ∉ p.2 := by
  unfold RealtimeService.disconnectStep RealtimeService.socketDisconnect
    RealtimeService.handleDisconnection
  by_cases hc : acc.sockets.contains sid = true
  · rw [if_pos hc]
    dsimp only
    intro p hp
    obtain ⟨q, hq, rfl⟩ := List.mem_map.mp hp
    intro hx
    exact h q hq (List.mem_of_mem_filter hx)
  · rw [if_neg hc]
    exact h

/-- One loop iteration never re-adds a socket to the namespace. -/
theorem disconnectStep_sockets_not_mem (uid sid x : String) (acc : RTState)
    (h : x ∉ acc.sockets) :
    x ∉ (RealtimeService.disconnectStep uid acc sid).sockets := by
  rw [disconnectStep_sockets_eq]
  by_cases hc : acc.sockets.contains sid = true
  · rw [if_pos hc]
    intro hx
    exact h (List.mem_of_mem_filter hx)
  · rw [if_neg hc]
    exact h

/-- A live socket other than the one being handled stays live. -/
theorem disconnectStep_keep_sockets (uid sid x : String) (acc : RTState)
    (hx : x ∈ acc.sockets) (hne : x ≠ sid) :
    x ∈ (RealtimeService.disconnectStep uid acc sid).sockets := by
  rw [disconnectStep_sockets_eq]
  by_cases hc : acc.sockets.contains sid = true
  · rw [if_pos hc]
    exact List.mem_filter.mpr ⟨hx, by simpa using hne⟩
  · rw [if_neg hc]
    exact hx

/-- Teardown is preserved by further loop iterations. -/
theorem disconnectStep_done (uid sid x : String) (acc : RTState)
    (h : RTDone acc x) : RTDone (RealtimeService.disconnectStep uid acc sid) x :=
  ⟨disconnectStep_sockets_not_mem uid sid x acc h.1,
   disconnectStep_emitted_mono uid sid acc _ h.2.1,
   disconnectStep_socketUsers_none uid sid x acc h.2.2.1,
   disconnectStep_rooms_not_mem uid sid x acc h.2.2.2⟩

/-- The iteration for a live socket tears it down. -/
theorem disconnectStep_processes (uid x : String) (acc : RTState)
    (h : x ∈ acc.sockets) : RTDone (RealtimeService.disconnectStep uid acc x) x := by
  have hc : acc.sockets.contains x = true := by simpa using h
  refine ⟨?_, ?_, ?_, ?_⟩
  · rw [disconnectStep_sockets_eq, if_pos hc]
    intro hx
    have := List.of_mem_filter hx
    simp at this
  · unfold RealtimeService.disconnectStep RealtimeService.socketDisconnect
      RealtimeService.handleDisconnection
    rw [if_pos hc]
    dsimp only
    exact List.mem_append_right _ (List.mem_singleton.mpr rfl)
  · unfold RealtimeService.disconnectStep RealtimeService.socketDisconnect
      RealtimeService.handleDisconnection
    rw [if_pos hc]
    dsimp only
    exact mapGet_mapDelete_self _ _
  · unfold RealtimeService.disconnectStep RealtimeService.socketDisconnect
      RealtimeService.handleDisconnection
    rw [if_pos hc]
    dsimp only
    intro p hp
    obtain ⟨q, hq, rfl⟩ := List.mem_map.mp hp
    intro hx
    have := List.of_mem_filter hx
    simp at this

/-- Teardown survives the rest of the loop. -/
theorem foldl_disconnectStep_done (uid x : String) (l : List String) :
    ∀ acc : RTState, RTDone acc x →
      RTDone (l.foldl (RealtimeService.disconnectStep uid) acc) x := by
  induction l with
  | nil => intro acc h; exact h
  | cons sid rest ih =>
    intro acc h
    rw [List.foldl_cons]
    exact ih _ (disconnectStep_done uid sid x acc h)

/-- Every socket id in the iterated list that is live (or already torn
down) ends torn down. -/
theorem foldl_disconnectStep_processes (uid x : String) (l : List String) :
    ∀ acc : RTState, x ∈ l → (x ∈ acc.sockets ∨ RTDone acc x) →
      RTDone (l.foldl (RealtimeService.disconnectStep uid) acc) x := by
  induction l with
  | nil => intro acc h; simp at h
  | cons sid rest ih =>
    intro acc hx hcase
    rw [List.foldl_cons]
    rcases hcase with hlive | hdone
    · by_cases hxs : x = sid
      · subst hxs
        exact foldl_disconnectStep_done uid x rest _
          (disconnectStep_processes uid x acc hlive)
      · have hxr : x ∈ rest := by
          rcases List.mem_cons.mp hx with h1 | h2
          · exact absurd h1 hxs
          · exact h2
        exact ih _ hxr (Or.inl (disconnectStep_keep_sockets uid sid x acc hlive hxs))
    · exact foldl_disconnectStep_done uid x rest _
        (disconnectStep_done uid sid x acc hdone)

/-- When the user's current connection set is contained in the remaining
iteration list and consists of live sockets, the loop empties it. -/
theorem foldl_disconnectStep_clears (uid : String) (l : List String) :
    ∀ acc : RTState,
      (mapGet acc.connectedUsers uid).getD [] ⊆ l →
      (∀ y ∈ (mapGet acc.connectedUsers uid).getD [], y ∈ acc.sockets) →
      (mapGet ((l.foldl (RealtimeService.disconnectStep uid)
        acc)).connectedUsers uid).getD [] = [] := by
  induction l with
  | nil =>
    intro acc hsub _
    simpa using List.subset_nil.mp hsub
  | cons sid rest ih =>
    intro acc hsub hsock
    rw [List.foldl_cons]
    apply ih
    · rw [disconnectStep_cu]
      by_cases hc : acc.sockets.contains sid = true
      · rw [if_pos hc]
        intro y hy
        have hmem := List.mem_of_mem_filter hy
        have hf := List.of_mem_filter hy
        have hne : y ≠ sid := by simpa using hf
        rcases List.mem_cons.mp (hsub hmem) with h1 | h2
        · exact absurd h1 hne
        · exact h2
      · rw [if_neg hc]
        intro y hy
        have hne : y ≠ sid := by
          intro he
          apply hc
          have : sid ∈ acc.sockets := he ▸ hsock y hy
          simpa using this
        rcases List.mem_cons.mp (hsub hy) with h1 | h2
        · exact absurd h1 hne
        · exact h2
    · rw [disconnectStep_cu, disconnectStep_sockets_eq]
      by_cases hc : acc.sockets.contains sid = true
      · rw [if_pos hc, if_pos hc]
        intro y hy
        have hmem := List.mem_of_mem_filter hy
        have hf := List.of_mem_filter hy
        exact List.mem_filter.mpr ⟨hsock y hmem, hf⟩
      · rw [if_neg hc, if_neg hc]
        exact hsock

/-- C9: immediately after `forceDisconnect` returns, the registry holds
zero live connections for the user, on both transports.  For the socket
transport (`disconnectUser`), under the registry-consistency hypothesis
that every socket id recorded for the user is a live socket, the user's
entry is emptied and every one of their sockets is torn down (notified
with `force-disconnect`, removed from the namespace, from `socketUsers`,
and from every room).  For the push-stream transport
(`closeUserConnections`), the user's entry is deleted unconditionally and
exactly the not-yet-ended connections are notified. -/
theorem forceDisconnect_zero_connections (s : RTState) (uid : String)
    (hlive : ∀ sid ∈ (mapGet s.connectedUsers uid).getD [], sid ∈ s.sockets)
    (ss : SSEState) :
    (mapGet (RealtimeService.disconnectUser s uid).connectedUsers uid).getD []
      = [] ∧
    (∀ sid ∈ (mapGet s.connectedUsers uid).getD [],
      RTDone (RealtimeService.disconnectUser s uid) sid) ∧
    mapGet (SSEService.closeUserConnections ss uid).1.connections uid = none ∧
    (SSEService.closeUserConnections ss uid).2 =
      ((mapGet ss.connections uid).getD []).filter
        (fun c => !c.writableEnded) := by
  have htrivial : ((!false) = true) := rfl
  have hnottrue : ¬ ((!true) = true) := by simp
  refine ⟨?_, ?_, ?_, ?_⟩
  · unfold RealtimeService.disconnectUser
    cases hh : mapHas s.connectedUsers uid with
    | false =>
      rw [if_pos htrivial]
      rw [mapGet_eq_none_of_not_has _ _ hh]
      rfl
    | true =>
      rw [if_neg hnottrue]
      exact foldl_disconnectStep_clears uid _ s (fun y hy => hy) hlive
  · intro sid hsid
    unfold RealtimeService.disconnectUser
    cases hh : mapHas s.connectedUsers uid with
    | false =>
      rw [mapGet_eq_none_of_not_has _ _ hh] at hsid
      simp at hsid
    | true =>
      rw [if_neg hnottrue]
      exact foldl_disconnectStep_processes uid sid _ s hsid
        (Or.inl (hlive sid hsid))
  · unfold SSEService.closeUserConnections
    cases hh : mapHas ss.connections uid with
    | false =>
      rw [if_pos htrivial]
      exact mapGet_eq_none_of_not_has _ _ hh
    | true =>
      rw [if_neg hnottrue]
      exact mapGet_mapDelete_self _ _
  · unfold SSEService.closeUserConnections
    cases hh : mapHas ss.connections uid with
    | false =>
      rw [if_pos htrivial]
      rw [mapGet_eq_none_of_not_has _ _ hh]
      rfl
    | true =>
      rw [if_neg hnottrue]

/-- A socket-transport state: user u1 owns sockets s1 and s2, both live,
subscribed to rooms; u2 owns s3. -/
def rt0 : RTState :=
  { connectedUsers := [("u1", ["s1", "s2"]), ("u2", ["s3"])],
    socketUsers :=
      [("s1", { userId := "u1", role := "user", email := "u@x.com",
                connectedAt := 0, ip := none }),
       ("s2", { userId := "u1", role := "user", email := "u@x.com",
                connectedAt := 0, ip := none }),
       ("s3", { userId := "u2", role := "user", email := "v@x.com",
                connectedAt := 0, ip := none })],
    sockets := ["s1", "s2", "s3"],
    rooms := [("user:u1", ["s1", "s2"]), ("device:42", ["s2", "s3"])],
    emitted := [] }

/-- A push-stream state: user u1 has one open and one ended connection. -/
def sse1 : SSEState :=
  { connections := [("u1", [{ connId := "c1", writableEnded := false },
                            { connId := "c2", writableEnded := true }])],
    lastEventId := 3, eventHistory := [] }

/-- Witness for C9 at the concrete states: after `disconnectUser` user u1
has no connection entry and s1 is fully torn down; after
`closeUserConnections` the SSE entry is gone. -/
theorem forceDisconnect_zero_connections_witness :
    (mapGet (RealtimeService.disconnectUser rt0 "u1").connectedUsers
      "u1").getD [] = [] ∧
    RTDone (RealtimeService.disconnectUser rt0 "u1") "s1" ∧
    mapGet (SSEService.closeUserConnections sse1 "u1").1.connections "u1"
      = none :=
  ⟨(forceDisconnect_zero_connections rt0 "u1" (by decide) sse1).1,
   (forceDisconnect_zero_connections rt0 "u1" (by decide) sse1).2.1 "s1"
     (by decide),
   (forceDisconnect_zero_connections rt0 "u1" (by decide) sse1).2.2.1⟩
